import Mathlib

/-!
# Verification of pyrqlite's type-marshaling and parameter-binding engine

Shallow embedding of the core of the `pyrqlite` client library
(`pyrqlite/cursors.py`, `pyrqlite/extensions.py`, `pyrqlite/row.py`,
`pyrqlite/connections.py`) in Lean 4, together with theorems settling the
specification's claims about parameter binding, converter resolution,
date round-tripping, the row model, result decoding and redirect handling.

Python strings are modelled as `List Char` / `String`; Python exceptions
are modelled with `Except` (the error payload keeps just enough structure
to identify which `raise` fired); Python `dict`s are modelled as
association lists with first-match lookup.
-/

namespace Pyrqlite

/-! ## Parameter binder (`pyrqlite/cursors.py`)

`Cursor._strip_strings` walks the operation character by character,
tracking single-quote state, double-quote state and a one-character
backslash escape, and keeps only the characters outside both kinds of
quotes. -/

/-- Embeds the loop body of `Cursor._strip_strings`: the three booleans are
`in_single_quote`, `in_double_quote` and `escape`. -/
def stripStringsAux : List Char → Bool → Bool → Bool → List Char
  | [], _, _, _ => []
  | c :: rest, inS, inD, esc =>
    if esc then
      stripStringsAux rest inS inD false
    else if c = '\\' then
      stripStringsAux rest inS inD true
    else if c = '\'' && !inD then
      stripStringsAux rest (!inS) inD false
    else if c = '"' && !inS then
      stripStringsAux rest inS (!inD) false
    else if !inS && !inD then
      c :: stripStringsAux rest inS inD false
    else
      stripStringsAux rest inS inD false

/-- `Cursor._strip_strings(operation)`: remove string-literal spans so that
placeholders inside them are never counted. -/
def strip_strings (operation : List Char) : List Char :=
  stripStringsAux operation false false false

/-- ASCII letter, the regex class `[a-zA-Z]` used by the named-parameter
regex in `Cursor._get_named_params`. -/
def isAsciiLetter (c : Char) : Bool :=
  ('a' ≤ c && c ≤ 'z') || ('A' ≤ c && c ≤ 'Z')

/-- A regex word character (`\w`) for the purposes of the `\b` boundary in
the named-parameter regex (ASCII fragment: letters, digits, underscore). -/
def isWordChar (c : Char) : Bool :=
  isAsciiLetter c || ('0' ≤ c && c ≤ '9') || c = '_'

/-- Embeds `re.findall(r"(:{1}[a-zA-Z]+?\b)", s)` followed by dropping the
leading colon of each match (`Cursor._get_named_params`).  A match at a
position requires a `:`, then a maximal nonempty run of ASCII letters, and
the character after the run (if any) must not be a word character —
otherwise the lazy `[a-zA-Z]+?\b` cannot complete and the scan moves on;
scanning resumes after the end of each match.  The scanner carries the
letters (reversed) of an in-progress candidate match, `none` when no `:`
run is pending; a letter run contains no `:`, so on a failed candidate the
scan may resume directly at the character that ended the run. -/
def findNamedAux : List Char → Option (List Char) → List String
  | [], none => []
  | [], some acc => if acc ≠ [] then [String.mk acc.reverse] else []
  | c :: rest, none =>
    findNamedAux rest (if c = ':' then some [] else none)
  | c :: rest, some acc =>
    if isAsciiLetter c then
      findNamedAux rest (some (c :: acc))
    else if acc ≠ [] && !isWordChar c then
      String.mk acc.reverse ::
        findNamedAux rest (if c = ':' then some [] else none)
    else
      findNamedAux rest (if c = ':' then some [] else none)

/-- The named markers of a character sequence, in order of occurrence. -/
def findNamed (l : List Char) : List String :=
  findNamedAux l none

/-- `Cursor._get_named_params`: named markers found outside string
literals. -/
def get_named_params (operation : List Char) : List String :=
  findNamed (strip_strings operation)

/-- `Cursor._get_qmark_params` returns one entry per `?` in the stripped
text; only its length is ever used, so we embed the count. -/
def countQmark (operation : List Char) : Nat :=
  ((strip_strings operation).filter (· = '?')).length

/-- The parameters argument of `Cursor.execute`: absent (`None`), a
sequence, or a mapping (modelled as an association list, first match
wins, like a Python `dict`). -/
inductive Params (α : Type) where
  | none
  | seq (ps : List α)
  | dict (entries : List (String × α))

/-- One constructor per `raise ProgrammingError` site in
`Cursor._check_params_count` (the formatted message strings are elided;
every site raises `ProgrammingError`). -/
inductive ParamError where
  | paramRequired
  | mixedStyles
  | qmarkWithDict
  | namedMissing (name : String)
  | countMismatch (expected got : Nat)
  | namedWithSeq
deriving DecidableEq, Repr

/-- Embeds `Cursor._check_params_count(operation, parameters)`:
count `?` and named markers in the stripped operation and validate the
supplied parameters, raising `ProgrammingError` on mismatch. -/
def check_params_count (operation : List Char) (parameters : Params α) :
    Except ParamError Unit :=
  let qmark_matches := countQmark operation
  let named_matches := get_named_params operation
  let param_matches := qmark_matches + named_matches.length
  match parameters with
  | .none =>
    if param_matches > 0 then .error .paramRequired else .ok ()
  | .dict entries =>
    if qmark_matches > 0 && named_matches.length > 0 then .error .mixedStyles
    else if qmark_matches > 0 then .error .qmarkWithDict
    else match named_matches.find? (fun k => (entries.lookup k).isNone) with
      | some k => .error (.namedMissing k)
      | none => .ok ()
  | .seq ps =>
    if qmark_matches > 0 && named_matches.length > 0 then .error .mixedStyles
    else if param_matches ≠ ps.length then
      .error (.countMismatch param_matches ps.length)
    else if named_matches.length > 0 then .error .namedWithSeq
    else .ok ()

/-- Embeds `Cursor._resolve_named_params(operation, parameters,
named_params)`: a sequence is rejected outright; otherwise each referenced
name is resolved against the mapping, a missing key raising
`ProgrammingError`. -/
def resolve_named_params (parameters : Params α) (named_params : List String) :
    Except ParamError (List (String × α)) :=
  match parameters with
  | .none => .error .namedWithSeq
  | .seq _ => .error .namedWithSeq
  | .dict entries =>
    named_params.foldlM
      (fun acc k =>
        match entries.lookup k with
        | some v => .ok (acc ++ [(k, v)])
        | none => .error (.namedMissing k))
      []

/-! ## Claims C1 and C2: parameter-count validation -/

/-- C1: for a statement whose stripped text has exactly `n = countQmark op`
positional `?` markers and no named markers, `execute`'s parameter-count
validation (`Cursor._check_params_count`) accepts a parameter sequence of
length `n` and raises `ProgrammingError` on any other length. -/
theorem c1_positional_arity {α : Type} (op : List Char) (ps : List α)
    (hnamed : get_named_params op = []) :
    (ps.length = countQmark op →
      check_params_count op (Params.seq ps) = .ok ()) ∧
    (ps.length ≠ countQmark op →
      check_params_count op (Params.seq ps)
        = .error (.countMismatch (countQmark op) ps.length)) := by
  constructor
  · intro hlen
    simp [check_params_count, hnamed, hlen]
  · intro hlen
    simp [check_params_count, hnamed, Ne.symm hlen]

/-- Witness for C1 at `"insert into t values (?,?)"`: a two-element
sequence passes, a one-element sequence is rejected with the
count-mismatch `ProgrammingError`. -/
theorem c1_positional_arity_witness :
    check_params_count "insert into t values (?,?)".toList
        (Params.seq ["a", "b"]) = .ok () ∧
    check_params_count "insert into t values (?,?)".toList
        (Params.seq ["a"])
      = .error (.countMismatch 2 1) :=
  ⟨(c1_positional_arity "insert into t values (?,?)".toList ["a", "b"]
      (by decide)).1 (by decide),
   (c1_positional_arity "insert into t values (?,?)".toList ["a"]
      (by decide)).2 (by decide)⟩

/-- C2: for a statement with at least one named `:name` marker outside
string literals, a mapping lacking some referenced name is rejected by
`Cursor._check_params_count` with a `ProgrammingError`, and any
(non-mapping) parameter sequence is always rejected with a
`ProgrammingError`. -/
theorem c2_named_params {α : Type} (op : List Char)
    (hnamed : get_named_params op ≠ []) :
    (∀ entries : List (String × α),
      (∃ k ∈ get_named_params op, (entries.lookup k).isNone) →
      ∃ e, check_params_count op (Params.dict entries) = .error e) ∧
    (∀ ps : List α,
      ∃ e, check_params_count op (Params.seq ps) = .error e) := by
  have hlen : 0 < (get_named_params op).length := by
    cases h : get_named_params op with
    | nil => exact absurd h hnamed
    | cons a l => simp
  constructor
  · intro entries hmissing
    simp only [check_params_count]
    by_cases hq : countQmark op > 0
    · refine ⟨.mixedStyles, ?_⟩
      simp [hq, hlen]
    · have hfind : ((get_named_params op).find?
          (fun k => (entries.lookup k).isNone)).isSome := by
        rw [List.find?_isSome]
        obtain ⟨k, hk, hkn⟩ := hmissing
        exact ⟨k, hk, by simpa using hkn⟩
      obtain ⟨k, hk⟩ := Option.isSome_iff_exists.mp hfind
      refine ⟨.namedMissing k, ?_⟩
      simp [hq, hk]
  · intro ps
    simp only [check_params_count]
    by_cases hq : countQmark op > 0
    · refine ⟨.mixedStyles, ?_⟩
      simp [hq, hlen]
    · by_cases hc : countQmark op + (get_named_params op).length = ps.length
      · refine ⟨.namedWithSeq, ?_⟩
        simp [hq, hc, hlen]
      · exact ⟨.countMismatch (countQmark op + (get_named_params op).length)
          ps.length, by simp [hq, hc, hlen]⟩

/-- Witness for C2 at `"select :n"`: the mapping `{"m": "1"}` lacks the
referenced name `n` and is rejected; the sequence `["1"]` is rejected. -/
theorem c2_named_params_witness :
    (∃ e, check_params_count "select :n".toList
        (Params.dict [("m", "1")]) = .error e) ∧
    (∃ e, check_params_count "select :n".toList
        (Params.seq ["1"]) = .error e) :=
  ⟨(c2_named_params "select :n".toList (by decide)).1 [("m", "1")]
      ⟨"n", by decide, by decide⟩,
   (c2_named_params "select :n".toList (by decide)).2 ["1"]⟩

/-! ## Converter resolution (`pyrqlite/extensions.py`)

`_convert_to_python(column_name, type_, parse_decltypes, parse_colnames)`
resolves the converter applied to every value of a result column.  The
converter registry (the global `converters` dict) is modelled by its key
set, since only membership decides the resolution; the result names which
registered converter (if any) was selected and whether it was wrapped in
the base64 decoder. -/

/-- Python `str.upper` (ASCII fragment, which is all the registry keys and
declared types use). -/
def charUpper (c : Char) : Char :=
  if 'a' ≤ c && c ≤ 'z' then Char.ofNat (c.toNat - 32) else c

/-- Uppercase a string, as `str.upper`. -/
def upper (s : String) : String :=
  String.mk (s.toList.map charUpper)

/-- Python `str.isdigit` (ASCII fragment): nonempty and all digits. -/
def pyIsdigit (l : List Char) : Bool :=
  !l.isEmpty && l.all Char.isDigit

/-- First component of Python `s.partition(sep)`: the text before the
first occurrence of `sep`, or all of `s` when `sep` does not occur. -/
def partitionFst (sep : Char) : List Char → List Char
  | [] => []
  | c :: rest => if c = sep then [] else c :: partitionFst sep rest

/-- Third component of Python `s.partition(sep)`: the text after the first
occurrence of `sep`, or `''` when `sep` does not occur. -/
def partitionLast (sep : Char) : List Char → List Char
  | [] => []
  | c :: rest => if c = sep then rest else partitionLast sep rest

/-- The default keys of the `converters` dict in `extensions.py`. -/
def defaultConverterKeys : List String :=
  ["UNICODE", "INTEGER", "BOOL", "FLOAT", "REAL", "NULL", "BLOB", "DATE",
   "DATETIME", "TIMESTAMP"]

/-- `_native_converters` in `extensions.py`: keys whose wire values are
fed to the converter without base64 decoding. -/
def native_converters : List String :=
  ["BOOL", "FLOAT", "INTEGER", "REAL", "NUMBER", "NULL", "DATE",
   "DATETIME", "TIMESTAMP"]

/-- Substring search over character lists. -/
def isInfixOfCL (pat : List Char) : List Char → Bool
  | [] => pat.isEmpty
  | c :: rest => pat.isPrefixOf (c :: rest) || isInfixOfCL pat rest

/-- `_text_affinity_re.search(t)`: does `t` contain `CHAR`, `CLOB` or
`TEXT` as a substring? -/
def textAffinity (l : List Char) : Bool :=
  isInfixOfCL "CHAR".toList l || isInfixOfCL "CLOB".toList l ||
    isInfixOfCL "TEXT".toList l

/-- The bracketed column-name hint:
`column_name.upper().partition('[')[-1].partition(']')[0]`. -/
def bracketKey (column_name : String) : String :=
  String.mk (partitionFst ']' (partitionLast '[' (upper column_name).toList))

/-- Outcome of `_convert_to_python`:
`passthrough` is a `None` converter (value used unchanged); `conv key b`
is `converters[key]`, wrapped in `_decode_base64_converter` when `b`;
`condBase64` is `_conditional_string_decode_base64`. -/
inductive ConvResult where
  | passthrough
  | conv (key : String) (base64 : Bool)
  | condBase64
deriving DecidableEq, Repr

/-- Embeds `_convert_to_python` from `extensions.py`.  `registry` is the
key set of the `converters` dict (defaults plus any
`register_converter` additions). -/
def convert_to_python (registry : List String) (column_name type_ : String)
    (parse_decltypes parse_colnames : Bool) : ConvResult :=
  -- `if type_ == '':` pseudo-type inference from the column name
  let type1 : String :=
    if type_ = "" then
      if pyIsdigit column_name.toList then "int"
      else if pyIsdigit (partitionFst '.' column_name.toList) &&
          pyIsdigit (partitionLast '.' column_name.toList) then "real"
      else type_
    else type_
  -- `if '[' in column_name and ']' in column_name and parse_colnames:`
  let colKey : Option String :=
    if column_name.toList.contains '[' && column_name.toList.contains ']' &&
        parse_colnames then
      if registry.contains (bracketKey column_name) then
        some (bracketKey column_name)
      else none
    else none
  match colKey with
  | some k => .conv k (!native_converters.contains k)
  | none =>
    -- `if not converter:` — type_upper is recomputed from the declared type
    let tU0 := upper type1
    let tU := if parse_decltypes then
        String.mk (partitionFst ' ' (partitionFst '(' tU0.toList))
      else tU0
    if registry.contains tU &&
        (native_converters.contains tU || parse_decltypes) then
      .conv tU (!native_converters.contains tU)
    else if tU = "" || textAffinity tU.toList then .passthrough
    else .condBase64

/-! ## Claim C3: column-name hint precedence -/

/-- C3: when both mode flags are enabled and the column name carries a
bracketed hint whose (uppercased) contents are a registered converter key,
`_convert_to_python` selects that registered converter, whatever the
declared type is. -/
theorem c3_colname_precedence (registry : List String)
    (column_name type_ : String) (parse_decltypes : Bool)
    (hb : '[' ∈ column_name.toList ∧ ']' ∈ column_name.toList)
    (hreg : bracketKey column_name ∈ registry) :
    convert_to_python registry column_name type_ parse_decltypes true
      = .conv (bracketKey column_name)
          (!native_converters.contains (bracketKey column_name)) := by
  have h1 : '[' ∈ column_name.data := hb.1
  have h2 : ']' ∈ column_name.data := hb.2
  simp [convert_to_python, h1, h2, hreg]

/-- Witness for C3: with `FOO` registered alongside the defaults, the
column `x [foo]` resolves to the `FOO` converter even though the declared
type `DATE` has a (default, native) converter of its own. -/
theorem c3_colname_precedence_witness :
    convert_to_python (defaultConverterKeys ++ ["FOO"]) "x [foo]" "DATE"
        true true = .conv "FOO" true := by
  rw [c3_colname_precedence (defaultConverterKeys ++ ["FOO"]) "x [foo]"
    "DATE" true ⟨by decide, by decide⟩ (by decide)]
  decide

/-! ## Claim C4: pseudo-type inference for empty declared types -/

/-- C4 (code evaluation at the failing input): with an empty declared
type, an all-digit column name `"3"` sets the pseudo-type `'int'`, whose
uppercasing `INT` matches no key of the `converters` dict (the key is
`INTEGER`), so resolution falls through to
`_conditional_string_decode_base64` instead of integer conversion — with
or without the declared-type mode flag; the parallel `digits.digits`
branch does reach the `REAL` converter. -/
theorem c4_pseudo_type_eval :
    convert_to_python defaultConverterKeys "3" "" false false
        = .condBase64 ∧
    convert_to_python defaultConverterKeys "3" "" true false
        = .condBase64 ∧
    convert_to_python defaultConverterKeys "3.14" "" false false
        = .conv "REAL" false := by
  refine ⟨?_, ?_, ?_⟩ <;> decide

/-! ## Date adapter and converter (`pyrqlite/extensions.py`)

`_adapt_date(val)` is `val.isoformat()` — `"%04d-%02d-%02d"` rendering of
a `datetime.date` — and `_convert_date(val)` is
`datetime.date(*map(int, val.split('T')[0].split("-")))`.  Dates are
modelled as `(year, month, day)` triples with the validity range enforced
by the `datetime.date` constructor; decimal rendering and `int()` parsing
(digit fragment) are embedded explicitly. -/

/-- The decimal digit character for `d < 10`. -/
def digitChar (d : Nat) : Char :=
  Char.ofNat (48 + d)

/-- Decimal rendering of a natural number, most significant digit first
(empty for `0`, as the padding below always covers it). -/
def natToChars (n : Nat) : List Char :=
  ((Nat.digits 10 n).map digitChar).reverse

/-- `"%0wd"`-style zero padding, as used by `date.isoformat`. -/
def zfill (w n : Nat) : List Char :=
  List.replicate (w - (natToChars n).length) '0' ++ natToChars n

/-- One step of `int()` over a decimal string. -/
def parseFold (a : Nat) (c : Char) : Nat :=
  10 * a + (c.toNat - 48)

/-- Python `int()` on a string of decimal digits (the fragment the date
converter feeds it); anything else raises `ValueError`, modelled as
`none`. -/
def parseNatOpt (cs : List Char) : Option Nat :=
  if !cs.isEmpty && cs.all Char.isDigit then
    some (cs.foldl parseFold 0)
  else none

/-- Python `str.split(sep)` for a one-character separator. -/
def splitOnChar (sep : Char) : List Char → List (List Char)
  | [] => [[]]
  | c :: rest =>
    match splitOnChar sep rest with
    | [] => [[]]
    | g :: gs => if c = sep then [] :: g :: gs else (c :: g) :: gs

/-- Gregorian leap year, as `datetime`. -/
def isLeapYear (y : Nat) : Bool :=
  y % 4 = 0 && (y % 100 ≠ 0 || y % 400 = 0)

/-- Days in a month, as `datetime`. -/
def daysInMonth (y m : Nat) : Nat :=
  if m = 2 then (if isLeapYear y then 29 else 28)
  else if m = 4 || m = 6 || m = 9 || m = 11 then 30
  else 31

/-- The validity check of the `datetime.date` constructor
(`MINYEAR = 1`, `MAXYEAR = 9999`). -/
def validDate (y m d : Nat) : Bool :=
  1 ≤ y && y ≤ 9999 && 1 ≤ m && m ≤ 12 && 1 ≤ d && d ≤ daysInMonth y m

/-- `_adapt_date`: `date(y, m, d).isoformat()`. -/
def adapt_date (y m d : Nat) : List Char :=
  zfill 4 y ++ '-' :: (zfill 2 m ++ '-' :: zfill 2 d)

/-- `_convert_date`: split the wire string at `'T'`, split the date part
at `'-'`, parse the three fields with `int` and build a `datetime.date`
(whose constructor validates the triple); any failure raises, modelled as
`none`. -/
def convert_date (s : List Char) : Option (Nat × Nat × Nat) :=
  let datepart := s.takeWhile (· ≠ 'T')
  match splitOnChar '-' datepart with
  | [a, b, c] =>
    match parseNatOpt a, parseNatOpt b, parseNatOpt c with
    | some y, some m, some d =>
      if validDate y m d then some (y, m, d) else none
    | _, _, _ => none
  | _ => none

/-! ### Decimal rendering / parsing lemmas -/

/-- For an actual digit, `digitChar` inverts back via `parseFold`'s
`c.toNat - 48`, is a digit character, and is neither `'-'` nor `'T'`. -/
theorem digitChar_spec (d : Nat) (hd : d < 10) :
    (digitChar d).toNat - 48 = d ∧ (digitChar d).isDigit = true ∧
      digitChar d ≠ '-' ∧ digitChar d ≠ 'T' := by
  interval_cases d <;> exact ⟨by decide, by decide, by decide, by decide⟩

/-- Folding the decimal parser over the rendered digits of `n` appends
`n` to the accumulator positionally. -/
theorem foldl_natToChars (n : Nat) :
    ∀ a : Nat, (natToChars n).foldl parseFold a
      = a * 10 ^ (Nat.digits 10 n).length + n := by
  induction n using Nat.strong_induction_on with
  | _ n ih =>
    intro a
    rcases Nat.eq_zero_or_pos n with hn | hn
    · subst hn; simp [natToChars]
    · have hdig := Nat.digits_def' (b := 10) (by norm_num) hn
      have hlt : n / 10 < n := Nat.div_lt_self hn (by norm_num)
      have hmod : n % 10 < 10 := Nat.mod_lt _ (by norm_num)
      have ihd := ih (n / 10) hlt
      simp only [natToChars] at ihd ⊢
      rw [hdig]
      simp only [List.map_cons, List.reverse_cons, List.foldl_append,
        List.foldl_cons, List.foldl_nil]
      rw [ihd a]
      simp only [parseFold, (digitChar_spec (n % 10) hmod).1,
        List.length_cons, pow_succ]
      have := Nat.div_add_mod n 10
      ring_nf
      omega

/-- Every rendered character is a decimal digit, and neither `'-'` nor
`'T'`. -/
theorem natToChars_chars (n : Nat) :
    ∀ c ∈ natToChars n, c.isDigit = true ∧ c ≠ '-' ∧ c ≠ 'T' := by
  intro c hc
  simp only [natToChars, List.mem_reverse, List.mem_map] at hc
  obtain ⟨d, hd, rfl⟩ := hc
  have hlt : d < 10 := Nat.digits_lt_base (by norm_num) hd
  exact ⟨(digitChar_spec d hlt).2.1, (digitChar_spec d hlt).2.2.1,
    (digitChar_spec d hlt).2.2.2⟩

/-- Characters of a zero-padded rendering: digits, never `'-'` or
`'T'`. -/
theorem zfill_chars (w n : Nat) :
    ∀ c ∈ zfill w n, c.isDigit = true ∧ c ≠ '-' ∧ c ≠ 'T' := by
  intro c hc
  simp only [zfill, List.mem_append, List.mem_replicate] at hc
  rcases hc with ⟨-, rfl⟩ | hc
  · exact ⟨by decide, by decide, by decide⟩
  · exact natToChars_chars n c hc

/-- Parsing a zero-padded rendering recovers the rendered number, for any
positive pad width. -/
theorem parseNatOpt_zfill (w n : Nat) (hw : 0 < w) :
    parseNatOpt (zfill w n) = some n := by
  have hne : (zfill w n).isEmpty = false := by
    have hlen : (zfill w n).length
        = (w - (natToChars n).length) + (natToChars n).length := by
      simp [zfill]
    rcases Nat.eq_zero_or_pos (natToChars n).length with h0 | h0
    · have : 0 < (zfill w n).length := by omega
      cases h : zfill w n with
      | nil => rw [h] at this; simp at this
      | cons a l => simp [h]
    · have : 0 < (zfill w n).length := by omega
      cases h : zfill w n with
      | nil => rw [h] at this; simp at this
      | cons a l => simp [h]
  have hall : (zfill w n).all Char.isDigit = true := by
    rw [List.all_eq_true]
    intro c hc
    exact (zfill_chars w n c hc).1
  simp only [parseNatOpt, hne, hall, Bool.not_false, Bool.and_self,
    if_pos rfl]
  rw [zfill, List.foldl_append]
  have hzeros : ∀ k, (List.replicate k '0').foldl parseFold 0 = 0 := by
    intro k
    induction k with
    | zero => simp
    | succ k ihk => simpa [List.replicate_succ, parseFold] using ihk
  rw [hzeros, foldl_natToChars]
  simp

/-! ### Split lemmas -/

/-- `splitOnChar` of a separator-free list is the singleton group. -/
theorem splitOnChar_no_sep (sep : Char) (l : List Char)
    (h : sep ∉ l) : splitOnChar sep l = [l] := by
  induction l with
  | nil => simp [splitOnChar]
  | cons c rest ih =>
    have hc : c ≠ sep := fun hcs => h (hcs ▸ List.mem_cons_self c rest)
    have hrest : sep ∉ rest := fun hm => h (List.mem_cons_of_mem c hm)
    simp [splitOnChar, ih hrest, hc]

/-- `splitOnChar` peels one separator-free group off the front. -/
theorem splitOnChar_append (sep : Char) (a rest : List Char)
    (ha : sep ∉ a) :
    splitOnChar sep (a ++ sep :: rest) = a :: splitOnChar sep rest := by
  induction a with
  | nil =>
    simp only [List.nil_append, splitOnChar]
    cases splitOnChar sep rest <;> rfl
  | cons c a' ih =>
    have hc : c ≠ sep := fun hcs => ha (hcs ▸ List.mem_cons_self c a')
    have ha' : sep ∉ a' := fun hm => ha (List.mem_cons_of_mem c hm)
    simp only [List.cons_append, splitOnChar, List.append_eq]
    rw [ih ha']
    simp [hc]

/-! ## Claim C5: date round-trip -/

/-- C5: adapting a valid calendar date to its wire string and converting
back yields the same date (`_adapt_date` then `_convert_date`). -/
theorem c5_date_roundtrip (y m d : Nat) (h : validDate y m d = true) :
    convert_date (adapt_date y m d) = some (y, m, d) := by
  have hchars : ∀ c ∈ adapt_date y m d, c ≠ 'T' := by
    intro c hc
    simp only [adapt_date, List.mem_append, List.mem_cons] at hc
    rcases hc with hc | rfl | hc | rfl | hc
    · exact (zfill_chars 4 y c hc).2.2
    · decide
    · exact (zfill_chars 2 m c hc).2.2
    · decide
    · exact (zfill_chars 2 d c hc).2.2
  have htake : (adapt_date y m d).takeWhile (· ≠ 'T') = adapt_date y m d := by
    rw [List.takeWhile_eq_self_iff]
    intro c hc
    simpa using hchars c hc
  have hy : ('-' : Char) ∉ zfill 4 y := fun hm =>
    (zfill_chars 4 y '-' hm).2.1 rfl
  have hm2 : ('-' : Char) ∉ zfill 2 m := fun hmm =>
    (zfill_chars 2 m '-' hmm).2.1 rfl
  have hd2 : ('-' : Char) ∉ zfill 2 d := fun hmm =>
    (zfill_chars 2 d '-' hmm).2.1 rfl
  simp only [convert_date]
  rw [htake]
  simp only [adapt_date]
  rw [splitOnChar_append '-' (zfill 4 y) _ hy,
    splitOnChar_append '-' (zfill 2 m) _ hm2,
    splitOnChar_no_sep '-' (zfill 2 d) hd2]
  simp only [parseNatOpt_zfill 4 y (by norm_num),
    parseNatOpt_zfill 2 m (by norm_num),
    parseNatOpt_zfill 2 d (by norm_num)]
  simp [h]

/-- Witness for C5 at `Date(2004, 2, 14)`. -/
theorem c5_date_roundtrip_witness :
    convert_date (adapt_date 2004 2 14) = some (2004, 2, 14) :=
  c5_date_roundtrip 2004 2 14 (by decide)

/-! ## The Row model (`pyrqlite/row.py`)

A `Row` is built from an ordered list of `(name, value)` pairs.  Its
tuple part holds the values in order; its `_dict` part is built with
`d.setdefault(k, v)` over the pairs, so only the first occurrence of each
name is indexed.  `__getitem__` tries the dict first and falls back to
positional tuple access for integer keys (which, the column names being
strings, never collide with the dict). -/

/-- The `_dict` of `Row.__init__`: fold `setdefault` over the pairs — a
key already present keeps its first value. -/
def rowDict {α : Type} (items : List (String × α)) : List (String × α) :=
  items.foldl
    (fun d kv => if (d.lookup kv.1).isSome then d else d ++ [kv]) []

/-- A key passed to `Row.__getitem__`: a column name or a position. -/
inductive RowKey where
  | name (s : String)
  | idx (i : Nat)

/-- Embeds `Row.__getitem__`: name keys go through the first-occurrence
dict; integer keys raise `KeyError` in the dict (its keys are the string
column names) and fall back to the underlying tuple, whose `i`-th entry
is the value of the `i`-th pair; an out-of-range index raises
(`none`). -/
def rowGetitem {α : Type} (items : List (String × α)) : RowKey → Option α
  | .name s => (rowDict items).lookup s
  | .idx i => (items.get? i).map Prod.snd

/-- `setdefault`-folding preserves already-present keys and appends
absent ones, so dict lookup is first-match lookup on the original
pairs. -/
theorem rowDict_lookup {α : Type} (items : List (String × α)) (k : String) :
    (rowDict items).lookup k = items.lookup k := by
  suffices h : ∀ d : List (String × α),
      (items.foldl
        (fun d kv => if (d.lookup kv.1).isSome then d else d ++ [kv])
        d).lookup k = ((d.lookup k).or (items.lookup k)) by
    simpa [rowDict] using h []
  induction items with
  | nil => simp
  | cons kv rest ih =>
    obtain ⟨a, v⟩ := kv
    intro d
    rw [List.foldl_cons, ih]
    by_cases hmem : (d.lookup a).isSome
    · simp only [hmem, if_true]
      by_cases hk : k = a
      · subst hk
        obtain ⟨w, hw⟩ := Option.isSome_iff_exists.mp hmem
        simp [List.lookup, hw]
      · simp [List.lookup, beq_false_of_ne hk]
    · simp only [hmem, if_false]
      by_cases hk : k = a
      · subst hk
        have hnone : d.lookup k = none :=
          Option.not_isSome_iff_eq_none.mp hmem
        have happ : (d ++ [(k, v)]).lookup k = some v := by
          rw [List.lookup_append, hnone]
          simp [List.lookup]
        simp [happ, hnone, List.lookup]
      · have happ : (d ++ [(a, v)]).lookup k = d.lookup k := by
          rw [List.lookup_append]
          cases h : d.lookup k <;>
            simp [List.lookup, beq_false_of_ne hk, h]
        simp [happ, List.lookup, beq_false_of_ne hk]

/-! ## Claim C6: positional and name-based row access -/

/-- C6: positional access returns the value of the `i`-th pair for every
in-range `i` (all pairs are present positionally, duplicates included),
and name-based access returns the value of the first pair whose name
matches. -/
theorem c6_row_access {α : Type} (items : List (String × α)) :
    (∀ i (h : i < items.length),
      rowGetitem items (.idx i) = some (items.get ⟨i, h⟩).2) ∧
    (∀ s : String, rowGetitem items (.name s) = items.lookup s) := by
  constructor
  · intro i h
    have hg : items.get? i = some (items.get ⟨i, h⟩) := List.get?_eq_get h
    show (items.get? i).map Prod.snd = some (items.get ⟨i, h⟩).2
    rw [hg]
    rfl
  · intro s
    simp [rowGetitem, rowDict_lookup]

/-- Witness for C6 on the spec's duplicate-column join row
`[("id", 1), ("name", 2), ("id", 3)]`: both `id` columns are reachable
positionally with their distinct values, while `row["id"]` returns the
first one. -/
theorem c6_row_access_witness :
    rowGetitem [("id", 1), ("name", 2), ("id", 3)] (.idx 0) = some 1 ∧
    rowGetitem [("id", 1), ("name", 2), ("id", 3)] (.idx 2) = some 3 ∧
    rowGetitem [("id", 1), ("name", 2), ("id", 3)] (.name "id") = some 1 :=
  ⟨(c6_row_access [("id", 1), ("name", 2), ("id", 3)]).1 0 (by decide),
   (c6_row_access [("id", 1), ("name", 2), ("id", 3)]).1 2 (by decide),
   by rw [(c6_row_access [("id", 1), ("name", 2), ("id", 3)]).2 "id"]; rfl⟩

/-! ## Result decoding (`Cursor.execute` in `pyrqlite/cursors.py`)

The tail of `Cursor.execute`, from the parsed JSON payload to the cursor
state.  A per-statement result entry is a JSON object; the raised
`ProgrammingError` carries `json.dumps(item)`, modelled as the offending
entry itself.  Row values stay abstract (type `α`); applying a resolved
converter is a parameter `applyConv`, with a `None` converter leaving the
value unchanged exactly as the code's
`value if converter is None else converter(value)`. -/

/-- One entry of the response envelope's `results` list; absent JSON keys
are `none`. -/
structure StmtResult (α : Type) where
  error : Option String
  rows_affected : Option Int
  last_insert_id : Option Int
  columns : Option (List String)
  types : Option (List String)
  values : Option (List (List α))

/-- The cursor state established by the decoding tail of `execute`. -/
structure ExecState (α : Type) where
  description : Option (List String)
  rows : List (List (String × α))
  lastrowid : Option Int
  rowcount : Int
  rownumber : Nat

/-- `_column_stripper(column_name, parse_colnames)` from
`extensions.py`. -/
def column_stripper (column_name : String) (parse_colnames : Bool) :
    String :=
  if parse_colnames then String.mk (partitionFst ' ' column_name.toList)
  else column_name

/-- Python whitespace (ASCII fragment), as split by `str.split(None)`. -/
def isPySpace (c : Char) : Bool :=
  c = ' ' || c = '\t' || c = '\n' || c = '\r' ||
    c = Char.ofNat 11 || c = Char.ofNat 12

/-- `Cursor._get_sql_command`: `sql_str.split(None, 1)[0].upper()` — the
first whitespace-delimited token, uppercased (Python raises `IndexError`
on an all-whitespace statement; that corresponds to the empty result
here and is excluded by hypothesis where it matters). -/
def get_sql_command (s : String) : String :=
  upper (String.mk
    (((s.toList.dropWhile isPySpace).takeWhile (fun c => !isPySpace c))))

/-- The loop `for item in results:` of `execute`: raise on the first
entry with an `error` key, otherwise accumulate `rows_affected`, track
the latest `last_insert_id`, and remember the last entry carrying a
`columns` key (`payload_rows`). -/
def scanResults {α : Type} :
    List (StmtResult α) → Int → Option Int → Option (StmtResult α) →
    Except (StmtResult α) (Int × Option Int × Option (StmtResult α))
  | [], ra, li, pr => .ok (ra, li, pr)
  | item :: rest, ra, li, pr =>
    if item.error.isSome then .error item
    else
      scanResults rest (ra + (item.rows_affected.getD 0))
        (match item.last_insert_id with
         | some x => some x
         | none => li)
        (if item.columns.isSome then some item else pr)

/-- `zip(fields, converters, payload_row)` and the row comprehension of
`execute`: the shortest of the three lists bounds the row. -/
def zip3With {α β γ δ : Type} (f : α → β → γ → δ) :
    List α → List β → List γ → List δ
  | a :: as, b :: bs, c :: cs => f a b c :: zip3With f as bs cs
  | _, _, _ => []

/-- One decoded row: pair each column name with its (converted) value;
a `None` converter passes the value through unchanged. -/
def buildRow {α : Type} (applyConv : ConvResult → α → α)
    (fields : List String) (convs : List ConvResult) (payload_row : List α) :
    List (String × α) :=
  zip3With
    (fun f cv v => (f, if cv = ConvResult.passthrough then v
                       else applyConv cv v))
    fields convs payload_row

/-- The `try: fields = payload_rows['columns'] ... else:` tail of
`execute`: build the description and rows (or the affects-only state) and
set `rowcount` from the command class. -/
def assembleState {α : Type} (registry : List String)
    (parse_decltypes parse_colnames : Bool)
    (applyConv : ConvResult → α → α) (command : String) (ra : Int)
    (li : Option Int) (pr : Option (StmtResult α))
    (prevLastrowid : Option Int) : ExecState α :=
  match pr with
  | none =>
    { description := none, rows := [],
      lastrowid := if command = "INSERT" then li else prevLastrowid,
      rowcount := if command = "UPDATE" || command = "DELETE" then ra else 0,
      rownumber := 0 }
  | some item =>
    match item.columns with
    | none =>
      { description := none, rows := [],
        lastrowid := if command = "INSERT" then li else prevLastrowid,
        rowcount := if command = "UPDATE" || command = "DELETE" then ra
          else 0,
        rownumber := 0 }
    | some fields =>
      let rows : List (List (String × α)) :=
        match item.values, item.types with
        | some values, some types =>
          if values.isEmpty then []
          else
            let convs := (fields.zip types).map
              (fun ft => convert_to_python registry ft.1 ft.2
                parse_decltypes parse_colnames)
            values.map (buildRow applyConv fields convs)
        | _, _ => []
      { description :=
          some (fields.map (fun f => column_stripper f parse_colnames)),
        rows := rows,
        lastrowid := prevLastrowid,
        rowcount := if command = "UPDATE" || command = "DELETE" then ra
          else rows.length,
        rownumber := 0 }

/-- The decoding tail of `Cursor.execute`, from the parsed payload
(`results` present or not) to the new cursor state, raising
`ProgrammingError` with the offending entry on a per-statement error. -/
def executeDecode {α : Type} (registry : List String)
    (parse_decltypes parse_colnames : Bool)
    (applyConv : ConvResult → α → α) (command : String)
    (results? : Option (List (StmtResult α)))
    (prevLastrowid : Option Int) : Except (StmtResult α) (ExecState α) :=
  match results? with
  | none =>
    .ok (assembleState registry parse_decltypes parse_colnames applyConv
      command (-1) none none prevLastrowid)
  | some rs =>
    match scanResults rs 0 none none with
    | .error item => .error item
    | .ok (ra, li, pr) =>
      .ok (assembleState registry parse_decltypes parse_colnames applyConv
        command ra li pr prevLastrowid)

/-- The summed `rows_affected` counters of an envelope's statement
results (absent counters contribute nothing). -/
def sumRowsAffected {α : Type} (rs : List (StmtResult α)) : Int :=
  (rs.map (fun r => r.rows_affected.getD 0)).sum

/-- Scanning an error-free results list accumulates exactly the summed
`rows_affected`. -/
theorem scanResults_ok {α : Type} (rs : List (StmtResult α))
    (h : ∀ r ∈ rs, r.error = none) :
    ∀ ra li pr, ∃ li' pr',
      scanResults rs ra li pr = .ok (ra + sumRowsAffected rs, li', pr') := by
  induction rs with
  | nil =>
    intro ra li pr
    exact ⟨li, pr, by simp [scanResults, sumRowsAffected]⟩
  | cons item rest ih =>
    intro ra li pr
    have hitem : item.error = none := h item (List.mem_cons_self _ _)
    have hrest : ∀ r ∈ rest, r.error = none :=
      fun r hr => h r (List.mem_cons_of_mem _ hr)
    obtain ⟨li', pr', hs⟩ := ih hrest (ra + item.rows_affected.getD 0)
      (match item.last_insert_id with
       | some x => some x
       | none => li)
      (if item.columns.isSome then some item else pr)
    refine ⟨li', pr', ?_⟩
    simp only [scanResults, hitem, Option.isSome_none, Bool.false_eq_true,
      if_false, hs, sumRowsAffected, List.map_cons, List.sum_cons]
    congr 2
    ring

/-- Scanning stops at the first entry carrying an `error` key and raises
it. -/
theorem scanResults_error {α : Type} (rs : List (StmtResult α))
    (rerr : StmtResult α)
    (h : rs.find? (fun r => r.error.isSome) = some rerr) :
    ∀ ra li pr, scanResults rs ra li pr = .error rerr := by
  induction rs with
  | nil => simp [List.find?] at h
  | cons item rest ih =>
    intro ra li pr
    by_cases he : item.error.isSome
    · rw [List.find?_cons_of_pos (p := fun r => r.error.isSome) rest
        (by simpa using he)] at h
      cases h
      simp [scanResults, he]
    · rw [List.find?_cons_of_neg (p := fun r => r.error.isSome) rest
        (by simpa using he)] at h
      simp only [scanResults, he, if_false]
      exact ih h _ _ _

/-! ## Claim C7: rowcount from command class -/

/-- C7: after decoding an error-free envelope, `rowcount` is the summed
`rows_affected` when the statement's leading command token is `UPDATE` or
`DELETE`, and the number of decoded rows otherwise — in particular `0`,
never `-1`, for a `SELECT` decoding no rows. -/
theorem c7_rowcount {α : Type} (registry : List String)
    (parse_decltypes parse_colnames : Bool)
    (applyConv : ConvResult → α → α) (op : String)
    (rs : List (StmtResult α)) (prevLastrowid : Option Int)
    (herr : ∀ r ∈ rs, r.error = none) :
    ∃ st, executeDecode registry parse_decltypes parse_colnames applyConv
        (get_sql_command op) (some rs) prevLastrowid = .ok st ∧
      (get_sql_command op = "UPDATE" ∨ get_sql_command op = "DELETE" →
        st.rowcount = sumRowsAffected rs) ∧
      (¬(get_sql_command op = "UPDATE" ∨ get_sql_command op = "DELETE") →
        st.rowcount = st.rows.length ∧ 0 ≤ st.rowcount) := by
  obtain ⟨li', pr', hs⟩ := scanResults_ok rs herr 0 none none
  rw [zero_add] at hs
  refine ⟨assembleState registry parse_decltypes parse_colnames applyConv
    (get_sql_command op) (sumRowsAffected rs) li' pr' prevLastrowid,
    by simp [executeDecode, hs], ?_, ?_⟩
  · intro hcmd
    have hb : (get_sql_command op = "UPDATE" ||
        get_sql_command op = "DELETE") = true := by
      rcases hcmd with h | h <;> simp [h]
    cases pr' with
    | none => simp [assembleState, hb]
    | some item =>
      cases hcols : item.columns with
      | none => simp [assembleState, hb, hcols]
      | some fields => simp [assembleState, hb, hcols]
  · intro hcmd
    have hb : (get_sql_command op = "UPDATE" ||
        get_sql_command op = "DELETE") = false := by
      simp only [not_or] at hcmd
      simp [hcmd.1, hcmd.2]
    cases pr' with
    | none => simp [assembleState, hb]
    | some item =>
      cases hcols : item.columns with
      | none => simp [assembleState, hb, hcols]
      | some fields =>
        constructor
        · simp [assembleState, hb, hcols]
        · simp [assembleState, hb, hcols]

/-- Witness for C7: an `UPDATE` envelope with two affected rows reports
`rowcount = 2`; a `SELECT` envelope decoding zero rows reports
`rowcount = 0`. -/
theorem c7_rowcount_witness :
    (∃ st, executeDecode (α := Int) defaultConverterKeys false false
        (fun _ v => v) (get_sql_command "UPDATE t SET name='bar'")
        (some [{ error := none, rows_affected := some 2,
                 last_insert_id := none, columns := none, types := none,
                 values := none }]) none = .ok st ∧
      (get_sql_command "UPDATE t SET name='bar'" = "UPDATE" ∨
        get_sql_command "UPDATE t SET name='bar'" = "DELETE" →
        st.rowcount = sumRowsAffected (α := Int)
          [{ error := none, rows_affected := some 2,
             last_insert_id := none, columns := none, types := none,
             values := none }]) ∧
      (¬(get_sql_command "UPDATE t SET name='bar'" = "UPDATE" ∨
          get_sql_command "UPDATE t SET name='bar'" = "DELETE") →
        st.rowcount = st.rows.length ∧ 0 ≤ st.rowcount)) ∧
    (∃ st, executeDecode (α := Int) defaultConverterKeys false false
        (fun _ v => v) (get_sql_command "SELECT * FROM t")
        (some [{ error := none, rows_affected := none,
                 last_insert_id := none, columns := some ["id"],
                 types := some ["integer"], values := some [] }]) none
          = .ok st ∧
      (get_sql_command "SELECT * FROM t" = "UPDATE" ∨
        get_sql_command "SELECT * FROM t" = "DELETE" →
        st.rowcount = sumRowsAffected (α := Int)
          [{ error := none, rows_affected := none,
             last_insert_id := none, columns := some ["id"],
             types := some ["integer"], values := some [] }]) ∧
      (¬(get_sql_command "SELECT * FROM t" = "UPDATE" ∨
          get_sql_command "SELECT * FROM t" = "DELETE") →
        st.rowcount = st.rows.length ∧ 0 ≤ st.rowcount)) :=
  ⟨c7_rowcount defaultConverterKeys false false (fun _ v => v)
      "UPDATE t SET name='bar'" _ none (by intro r hr; fin_cases hr; rfl),
   c7_rowcount defaultConverterKeys false false (fun _ v => v)
      "SELECT * FROM t" _ none (by intro r hr; fin_cases hr; rfl)⟩

/-! ## Claim C8: per-statement errors abort decoding -/

/-- C8: an envelope whose results list contains an entry with an `error`
key makes `execute` raise with the (serialized) offending entry — the
first such entry — and no decoded cursor state is produced. -/
theorem c8_error_aborts {α : Type} (registry : List String)
    (parse_decltypes parse_colnames : Bool)
    (applyConv : ConvResult → α → α) (command : String)
    (rs : List (StmtResult α)) (prevLastrowid : Option Int)
    (h : ∃ r ∈ rs, r.error.isSome) :
    ∃ rerr, rs.find? (fun r => r.error.isSome) = some rerr ∧
      rerr.error.isSome ∧
      executeDecode registry parse_decltypes parse_colnames applyConv
        command (some rs) prevLastrowid = .error rerr := by
  obtain ⟨r, hr, hre⟩ := h
  have hfind : (rs.find? (fun r => r.error.isSome)).isSome := by
    rw [List.find?_isSome]
    exact ⟨r, hr, hre⟩
  obtain ⟨rerr, hrerr⟩ := Option.isSome_iff_exists.mp hfind
  refine ⟨rerr, hrerr, ?_, ?_⟩
  · have := List.find?_some
      (p := fun r : StmtResult α => r.error.isSome) hrerr
    simpa using this
  · simp only [executeDecode]
    rw [scanResults_error rs rerr hrerr]

/-- Witness for C8: a two-statement envelope whose second entry carries
an error raises with that entry. -/
theorem c8_error_aborts_witness :
    ∃ rerr, ([{ error := none, rows_affected := some 1,
                last_insert_id := none, columns := none, types := none,
                values := none },
              { error := some "no such table: t", rows_affected := none,
                last_insert_id := none, columns := none, types := none,
                values := (none : Option (List (List Int))) }].find?
        (fun r => r.error.isSome)) = some rerr ∧
      rerr.error.isSome ∧
      executeDecode defaultConverterKeys false false (fun _ v => v)
        "SELECT * FROM t"
        (some [{ error := none, rows_affected := some 1,
                 last_insert_id := none, columns := none, types := none,
                 values := none },
               { error := some "no such table: t", rows_affected := none,
                 last_insert_id := none, columns := none, types := none,
                 values := none }]) none = .error rerr :=
  c8_error_aborts defaultConverterKeys false false (fun _ v => v)
    "SELECT * FROM t" _ none
    ⟨{ error := some "no such table: t", rows_affected := none,
       last_insert_id := none, columns := none, types := none,
       values := none }, by simp, by simp⟩

/-! ## Redirect handling (`Connection._fetch_response` in
`pyrqlite/connections.py`)

The transport keeps one open connection identified here by `connId`
(fresh ids come from `nextId`; `closed` records every connection that was
closed).  A response is modelled by its status and its parsed `Location`
header (`urlparse(...).hostname/.port`).  The environment is a script
assigning the response to the `k`-th request issued (request `0` is the
initial one, request `k` the `k`-th redirect follow-up).  `max_redirects`
is `Option Nat`, `none` standing for the `UNLIMITED_REDIRECTS` sentinel
(from the spec: unlimited by default; `constants.py` is not part of the
sources).  The `while` loop is embedded with explicit recursion fuel; all
theorems supply enough fuel that exhaustion is never reached. -/

/-- Transport-client connection state. -/
structure ConnState where
  host : String
  port : Nat
  connId : Nat
  nextId : Nat
  closed : List Nat
deriving DecidableEq, Repr

/-- An HTTP response: status plus parsed `Location` target. -/
structure HttpResp where
  status : Nat
  location : Option (String × Nat)
deriving DecidableEq, Repr

/-- The loop guard's redirect budget:
`max_redirects == UNLIMITED_REDIRECTS or redirects < max_redirects`. -/
def redirectAllowed (maxR : Option Nat) (redirects : Nat) : Bool :=
  match maxR with
  | none => true
  | some m => decide (redirects < m)

/-- One redirect follow-up on the connection state: a target with a
different host or port closes the old connection, stores the new
host/port and opens a fresh connection; the same host/port keeps the
connection. -/
def followRedirect (st : ConnState) (loc : String × Nat) : ConnState :=
  if st.host ≠ loc.1 || st.port ≠ loc.2 then
    { host := loc.1, port := loc.2, connId := st.nextId,
      nextId := st.nextId + 1, closed := st.connId :: st.closed }
  else st

/-- The `while` loop of `_fetch_response`: follow `301` responses that
carry a `Location` while the redirect budget allows, re-requesting after
each follow-up; return the last response otherwise. -/
def fetchLoop (script : Nat → HttpResp) (maxR : Option Nat) :
    Nat → Nat → ConnState → HttpResp → ConnState × HttpResp
  | 0, _, st, resp => (st, resp)
  | fuel + 1, redirects, st, resp =>
    match resp.location with
    | none => (st, resp)
    | some loc =>
      if resp.status = 301 && redirectAllowed maxR redirects then
        let redirects' := redirects + 1
        fetchLoop script maxR fuel redirects' (followRedirect st loc)
          (script redirects')
      else (st, resp)

/-- `Connection._fetch_response`: issue the initial request and follow
redirects. -/
def fetch_response (script : Nat → HttpResp) (maxR : Option Nat)
    (fuel : Nat) (st : ConnState) : ConnState × HttpResp :=
  fetchLoop script maxR fuel 0 st (script 0)

/-- Exhausting the redirect budget returns whatever response the last
follow-up produced, as-is. -/
theorem fetchLoop_exhaust (script : Nat → HttpResp) (m : Nat)
    (hall : ∀ i, (script i).status = 301 ∧ (script i).location.isSome) :
    ∀ fuel k st, k ≤ m → m - k < fuel →
      (fetchLoop script (some m) fuel k st (script k)).2 = script m := by
  intro fuel
  induction fuel with
  | zero => intro k st _ hf; omega
  | succ fuel ih =>
    intro k st hk hf
    obtain ⟨hst, hloc⟩ := hall k
    obtain ⟨loc, hloc'⟩ := Option.isSome_iff_exists.mp hloc
    by_cases hkm : k < m
    · have hcond : (decide ((script k).status = 301) &&
          redirectAllowed (some m) k) = true := by
        simp [hst, redirectAllowed, hkm]
      simp only [fetchLoop, hloc', hcond, if_true]
      exact ih (k + 1) (followRedirect st loc) (by omega) (by omega)
    · have hkeq : k = m := by omega
      subst hkeq
      simp [fetchLoop, hloc', hst, redirectAllowed]

/-! ## Claim C9: redirect following -/

/-- C9: (i) a `301` pointing at a different host or port closes the old
connection, records the new host/port, opens a fresh connection, and the
retried request's response is what the caller gets; (ii) a `301`
pointing at the same host and port reuses the existing connection
unchanged; (iii) when the number of redirects followed reaches the
configured maximum, the loop stops and the last response is returned to
the caller as-is rather than raising. -/
theorem c9_redirects (script : Nat → HttpResp) (st : ConnState) :
    (∀ (h : String) (p : Nat) (f : Nat) (maxR : Option Nat),
      (script 0).status = 301 → (script 0).location = some (h, p) →
      (st.host ≠ h ∨ st.port ≠ p) → (script 1).status ≠ 301 →
      redirectAllowed maxR 0 = true →
      fetch_response script maxR (f + 2) st
        = ({ host := h, port := p, connId := st.nextId,
             nextId := st.nextId + 1, closed := st.connId :: st.closed },
           script 1)) ∧
    (∀ (f : Nat) (maxR : Option Nat),
      (script 0).status = 301 →
      (script 0).location = some (st.host, st.port) →
      (script 1).status ≠ 301 → redirectAllowed maxR 0 = true →
      fetch_response script maxR (f + 2) st = (st, script 1)) ∧
    (∀ m : Nat,
      (∀ i, (script i).status = 301 ∧ (script i).location.isSome) →
      (fetch_response script (some m) (m + 1) st).2 = script m) := by
  refine ⟨?_, ?_, ?_⟩
  · intro h p f maxR hst hloc hne hst1 hallow
    have hfollow : followRedirect st (h, p)
        = { host := h, port := p, connId := st.nextId,
            nextId := st.nextId + 1, closed := st.connId :: st.closed } := by
      rcases hne with hh | hp
      · simp [followRedirect, hh]
      · simp [followRedirect, hp]
    have hcond : (decide ((script 0).status = 301) &&
        redirectAllowed maxR 0) = true := by
      simp [hst, hallow]
    show fetchLoop script maxR (f + 1 + 1) 0 st (script 0) = _
    simp only [fetchLoop, hloc, hcond, if_true, hfollow]
    cases hloc1 : (script 1).location with
    | none => simp [fetchLoop, hloc1]
    | some loc1 => simp [fetchLoop, hloc1, hst1]
  · intro f maxR hst hloc hst1 hallow
    have hfollow : followRedirect st (st.host, st.port) = st := by
      simp [followRedirect]
    have hcond : (decide ((script 0).status = 301) &&
        redirectAllowed maxR 0) = true := by
      simp [hst, hallow]
    show fetchLoop script maxR (f + 1 + 1) 0 st (script 0) = _
    simp only [fetchLoop, hloc, hcond, if_true, hfollow]
    cases hloc1 : (script 1).location with
    | none => simp [fetchLoop, hloc1]
    | some loc1 => simp [fetchLoop, hloc1, hst1]
  · intro m hall
    exact fetchLoop_exhaust script m hall (m + 1) 0 st (by omega) (by omega)

/-- Witness for C9: from `localhost:4001`, a redirect to `node2:4003`
followed by a `200` moves the connection (old id `7` closed, fresh id `8`
opened) and yields the `200`; a self-redirect reuses connection `7`; with
`max_redirects = 3` and an endless redirect chain the fourth response is
returned as-is. -/
theorem c9_redirects_witness :
    (fetch_response
        (fun i => if i = 0
          then { status := 301, location := some ("node2", 4003) }
          else { status := 200, location := none })
        (some 3) 2
        { host := "localhost", port := 4001, connId := 7, nextId := 8,
          closed := [] }
      = ({ host := "node2", port := 4003, connId := 8, nextId := 9,
           closed := [7] },
         { status := 200, location := none })) ∧
    (fetch_response
        (fun i => if i = 0
          then { status := 301, location := some ("localhost", 4001) }
          else { status := 200, location := none })
        (some 3) 2
        { host := "localhost", port := 4001, connId := 7, nextId := 8,
          closed := [] }
      = ({ host := "localhost", port := 4001, connId := 7, nextId := 8,
           closed := [] },
         { status := 200, location := none })) ∧
    ((fetch_response
        (fun _ => { status := 301, location := some ("node2", 4003) })
        (some 3) 4
        { host := "localhost", port := 4001, connId := 7, nextId := 8,
          closed := [] }).2
      = { status := 301, location := some ("node2", 4003) }) :=
  ⟨((c9_redirects
      (fun i => if i = 0
        then { status := 301, location := some ("node2", 4003) }
        else { status := 200, location := none })
      { host := "localhost", port := 4001, connId := 7, nextId := 8,
        closed := [] }).1 "node2" 4003 0 (some 3) (by decide) (by decide)
      (Or.inl (by decide)) (by decide) (by decide)),
   ((c9_redirects
      (fun i => if i = 0
        then { status := 301, location := some ("localhost", 4001) }
        else { status := 200, location := none })
      { host := "localhost", port := 4001, connId := 7, nextId := 8,
        closed := [] }).2.1 0 (some 3) (by decide) (by decide) (by decide)
      (by decide)),
   ((c9_redirects
      (fun _ => { status := 301, location := some ("node2", 4003) })
      { host := "localhost", port := 4001, connId := 7, nextId := 8,
        closed := [] }).2.2 3
      (fun i => ⟨by decide, by decide⟩))⟩

/-! ## Parameter adaptation (`_adapt_from_python` in
`pyrqlite/extensions.py`, Python 3 branch)

Parameter values are modelled by the host types the default adapter
registry covers: text, bytes, int, bool, `None` and dates (floats and
datetimes behave like int and date respectively — a non-text, non-bytes,
non-`None` adapter result goes through `str()`, and a datetime adapts to
an ISO text just as a date does).  The adapter output is then serialized:
text is single-quoted with embedded quotes doubled (`_escape_string`),
bytes become a hexadecimal blob literal `X'..'`, `None` becomes `NULL`,
and anything else is rendered with `str()` — so the structured parameter
array only ever carries strings. -/

/-- A parameter value passed to `execute`. -/
inductive PyVal where
  | str (s : String)
  | bytes (bs : List Nat)
  | int (n : Int)
  | bool (b : Bool)
  | none
  | date (y m d : Nat)

/-- The intermediate value produced by the adapter registry. -/
inductive Adapted where
  | astr (s : String)
  | abytes (bs : List Nat)
  | aint (n : Int)
  | anone

/-- Lowercase hexadecimal digit. -/
def hexDigitChar (d : Nat) : Char :=
  if d < 10 then Char.ofNat (48 + d) else Char.ofNat (87 + d)

/-- `codecs.encode(value, 'hex')` of one byte: two lowercase digits. -/
def byteHex (b : Nat) : List Char :=
  [hexDigitChar (b / 16 % 16), hexDigitChar (b % 16)]

/-- `value.replace("'", "''")`: double every embedded single quote. -/
def escapeQuotes : List Char → List Char
  | [] => []
  | c :: rest =>
    if c = '\'' then '\'' :: '\'' :: escapeQuotes rest
    else c :: escapeQuotes rest

/-- `_escape_string` on text: wrap in single quotes, doubling embedded
quotes. -/
def escape_string_str (s : String) : String :=
  "'" ++ String.mk (escapeQuotes s.toList) ++ "'"

/-- `_escape_string` on bytes: a hexadecimal blob literal. -/
def escape_string_bytes (bs : List Nat) : String :=
  "X'" ++ String.mk (bs.map byteHex).flatten ++ "'"

/-- Python `str()` of an integer. -/
def natRepr (n : Nat) : List Char :=
  if n = 0 then ['0'] else natToChars n

/-- Python `str()` of a signed integer. -/
def intRepr (n : Int) : String :=
  if n < 0 then String.mk ('-' :: natRepr n.natAbs)
  else String.mk (natRepr n.natAbs)

/-- The default adapter registry applied to a value (`adapters` in
`extensions.py`; a plain string skips the registry entirely): bytes,
ints and floats pass through, `bool` adapts via `int`, `None` stays
`None`, and a date adapts via `_adapt_date` to its ISO string. -/
def applyAdapter : PyVal → Adapted
  | .str s => .astr s
  | .bytes bs => .abytes bs
  | .int n => .aint n
  | .bool b => .aint (if b then 1 else 0)
  | .none => .anone
  | .date y m d => .astr (String.mk (adapt_date y m d))

/-- `_adapt_from_python`: adapt the value, then serialize text via
`_escape_string`, bytes via the blob literal, `None` as `NULL`, and any
other adapted value with `str()`. -/
def adapt_from_python (v : PyVal) : String :=
  match applyAdapter v with
  | .astr s => escape_string_str s
  | .abytes bs => escape_string_bytes bs
  | .anone => "NULL"
  | .aint n => intRepr n

/-- A decimal digit character is not a single quote. -/
theorem isDigit_ne_quote (c : Char) (h : c.isDigit = true) : c ≠ '\'' := by
  intro hc
  subst hc
  exact absurd h (by decide)

/-- Quote-doubling leaves a quote-free string unchanged. -/
theorem escapeQuotes_of_no_quote (l : List Char)
    (h : ∀ c ∈ l, c ≠ '\'') : escapeQuotes l = l := by
  induction l with
  | nil => rfl
  | cons c rest ih =>
    have hc : c ≠ '\'' := h c (List.mem_cons_self _ _)
    simp only [escapeQuotes, hc, if_false]
    rw [ih (fun x hx => h x (List.mem_cons_of_mem _ hx))]

/-! ## Claim C10: every adapted parameter is sent as a string -/

/-- C10: the adapter pipeline always produces a string — text values (and
adapter results that are text, such as adapted dates) are single-quoted
with embedded quotes doubled, bytes become an `X'..'` blob literal,
`None` becomes `NULL`, and other adapted values (ints, bools via int) are
rendered with `str()`; a date's ISO text has no quotes so its serialized
form is exactly the quoted ISO string. -/
theorem c10_adapt_to_string :
    (∀ s : String, adapt_from_python (.str s)
      = "'" ++ String.mk (escapeQuotes s.toList) ++ "'") ∧
    (∀ bs : List Nat, adapt_from_python (.bytes bs)
      = "X'" ++ String.mk (bs.map byteHex).flatten ++ "'") ∧
    (adapt_from_python .none = "NULL") ∧
    (∀ n : Int, adapt_from_python (.int n) = intRepr n) ∧
    (∀ b : Bool, adapt_from_python (.bool b)
      = intRepr (if b then 1 else 0)) ∧
    (∀ y m d : Nat, adapt_from_python (.date y m d)
      = "'" ++ String.mk (adapt_date y m d) ++ "'") := by
  refine ⟨fun s => rfl, fun bs => rfl, rfl, fun n => rfl, fun b => rfl,
    fun y m d => ?_⟩
  have hnq : ∀ c ∈ adapt_date y m d, c ≠ '\'' := by
    intro c hc
    simp only [adapt_date, List.mem_append, List.mem_cons] at hc
    rcases hc with hc | rfl | hc | rfl | hc
    · exact isDigit_ne_quote c (zfill_chars 4 y c hc).1
    · decide
    · exact isDigit_ne_quote c (zfill_chars 2 m c hc).1
    · decide
    · exact isDigit_ne_quote c (zfill_chars 2 d c hc).1
  show escape_string_str (String.mk (adapt_date y m d))
    = "'" ++ String.mk (adapt_date y m d) ++ "'"
  simp only [escape_string_str]
  rw [show (String.mk (adapt_date y m d)).toList = adapt_date y m d
    from rfl]
  rw [escapeQuotes_of_no_quote _ hnq]

end Pyrqlite
